import Mathlib

namespace dtrack

/-!
# deptrack-client-go: ComponentService and VEXService

A shallow embedding of `component.go` and `vex.go`.

* Go values of type `error` are values of `Error`; a nil error is `none`.
* The client (`*Client`) and the package-level option constructors that live
  in other files of the package are a parameter, `Client σ`, where `σ` is the
  state of the client and of the server behind it.
* Every call an operation makes on the client is appended, with what it
  returned, to the `log` of the `World`; theorems about what an operation
  calls are statements about that log.
* `req.URL.Query()` followed by `req.URL.RawQuery = query.Encode()` is a
  read and a write of the parsed query map (`url.Values`): the raw query
  string is represented by the map `url.ParseQuery` gives for it.
-/

/-! ## Values from the Go standard library and google/uuid -/

/-- The Go type `map[string][]string` behind `url.Values` and `http.Header`:
a key is absent (`none`) or carries a list of values. -/
@[ext]
structure Values where
  lookup : String → Option (List String)

/-- The empty map. -/
def Values.empty : Values := ⟨fun _ => none⟩

/-- Go `Values.Set(key, value)`: replaces whatever the key had with the single value. -/
def Values.Set (v : Values) (key value : String) : Values :=
  ⟨fun k => if k = key then some [value] else v.lookup k⟩

/-- Go `Values.Has(key)`. -/
def Values.Has (v : Values) (key : String) : Bool := (v.lookup key).isSome

/-- The type `uuid.UUID`, an array of 16 bytes. -/
structure UUID where
  bytes : List (Fin 256)
  size : bytes.length = 16

instance : DecidableEq UUID := fun a b =>
  decidable_of_iff (a.bytes = b.bytes)
    ⟨fun h => by cases a; cases b; cases h; rfl, fun h => by rw [h]⟩

/-- The value `uuid.Nil`: sixteen zero bytes. -/
def UUID.Nil : UUID := ⟨List.replicate 16 0, by decide⟩

instance : Inhabited UUID := ⟨UUID.Nil⟩

/-- One lower-case hexadecimal digit. -/
def hexDigit (n : Nat) : Char := "0123456789abcdef".data.getD n '0'

/-- The two hexadecimal digits of a byte. -/
def hexByte (b : Fin 256) : List Char := [hexDigit (b.val / 16), hexDigit (b.val % 16)]

/-- The hexadecimal digits of the bytes at positions `i` up to `j`. -/
def hexRange (bs : List (Fin 256)) (i j : Nat) : String :=
  String.mk (((bs.drop i).take (j - i)).flatMap hexByte)

/-- The method `UUID.String()`, which `fmt.Sprintf("%s", u)` calls: the form
`xxxxxxxx-xxxx-xxxx-xxxx-xxxxxxxxxxxx`. -/
def UUID.String (u : UUID) : String :=
  hexRange u.bytes 0 4 ++ "-" ++ hexRange u.bytes 4 6 ++ "-" ++ hexRange u.bytes 6 8 ++ "-"
    ++ hexRange u.bytes 8 10 ++ "-" ++ hexRange u.bytes 10 16

/-- The part of `url.URL` the operations touch. -/
structure URL where
  Path : String
  Query : Values

/-- The part of `http.Request` the operations touch. -/
structure Request where
  Method : String
  URL : URL
  Header : Values
  Body : Option String

/-- The type `context.Context`: the operations only hand it on to `newRequest`. -/
structure Context where
  done : Bool

/-- The constant `http.MethodGet`. -/
def MethodGet : String := "GET"

/-- The constant `http.MethodPut`. -/
def MethodPut : String := "PUT"

/-- The constant `http.MethodPost`. -/
def MethodPost : String := "POST"

/-- The constant `http.MethodDelete`. -/
def MethodDelete : String := "DELETE"

/-! ## Records of `component.go` and `vex.go` -/

/-- Modelled from the spec: the records License, Project and
RepositoryMetaComponent are declared in other files of the package; the spec
treats domain records as flat value types, and each is kept here in its
serialized form. -/
abbrev ForeignRecord := String

structure ExternalReference where
  Type_ : String
  URL : String
  Comment : String
deriving Inhabited, DecidableEq

structure Component where
  UUID : UUID
  Author : String
  Publisher : String
  Group : String
  Name : String
  Version : String
  Classifier : String
  FileName : String
  Extension : String
  MD5 : String
  SHA1 : String
  SHA256 : String
  SHA384 : String
  SHA512 : String
  SHA3_256 : String
  SHA3_384 : String
  SHA3_512 : String
  BLAKE2b_256 : String
  BLAKE2b_384 : String
  BLAKE2b_512 : String
  BLAKE3 : String
  CPE : String
  PURL : String
  SWIDTagID : String
  Internal : Bool
  Description : String
  Copyright : String
  License : String
  ResolvedLicense : Option ForeignRecord
  DirectDependencies : String
  Notes : String
  ExternalReferences : List ExternalReference
  Project : Option ForeignRecord
  RepositoryMeta : Option ForeignRecord
deriving Inhabited

structure ComponentFilterOptions where
  OnlyOutdated : Bool
  OnlyDirect : Bool
deriving Inhabited, DecidableEq

structure ComponentProperty where
  Group : String
  Name : String
  Value : String
  Type_ : String
  Description : String
  UUID : UUID
deriving Inhabited

structure ComponentIdentityQueryOptions where
  Group : String
  Name : String
  Version : String
  PURL : String
  CPE : String
  SWIDTagID : String
  Project : UUID
deriving Inhabited

structure VEXUploadRequest where
  ProjectUUID : Option UUID
  ProjectName : String
  ProjectVersion : String
  VEX : String
deriving Inhabited

abbrev VEXUploadToken := String

structure vexUploadResponse where
  Token : VEXUploadToken
deriving Inhabited

/-! ## The engine the operations call -/

/-- Modelled from the spec: the error type of the package is declared in
another file; section 3 of the spec gives its four kinds. -/
inductive Error where
  | VersionError (required actual : String)
  | TransportError (cause : String)
  | HTTPError (status : Nat) (message : String)
  | DecodeError (cause : String)
deriving DecidableEq, Inhabited

/-- The type `requestOption`: `func(*http.Request) error`. The mutated request
is returned next to the error. -/
abbrev requestOption := Request → Request × Option Error

/-- Modelled from the spec: PageOptions is declared in another file; a page
number and a page size. -/
structure PageOptions where
  PageNumber : Int
  PageSize : Int
deriving Inhabited, DecidableEq

/-- Modelled from the spec: SortOptions is declared in another file; a sort
field and a direction. -/
structure SortOptions where
  Name : String
  Order : String
deriving Inhabited, DecidableEq

/-- The generic type `Page[T]`; `TotalCount` is a Go `int`, as the assignment
`p.TotalCount = len(p.Items)` requires. -/
structure Page (T : Type) where
  Items : List T
  TotalCount : Int

instance {T : Type} : Inhabited (Page T) := ⟨⟨[], 0⟩⟩

/-- The part of `apiResponse` the operations read. -/
structure apiResponse where
  TotalCount : Int
deriving Inhabited, DecidableEq

/-- What `withBody` is given in the two files. -/
inductive Payload where
  | component (c : Component)
  | property (p : ComponentProperty)
  | vexUpload (r : VEXUploadRequest)

/-- The destinations `doRequest` is given in the two files: nil, or a pointer
to a value of one of six types. -/
inductive DestKind where
  | none
  | component
  | components
  | properties
  | property
  | text
  | uploadResponse
deriving DecidableEq

/-- The type of the value a destination points to. -/
def DestKind.type : DestKind → Type
  | .none => Unit
  | .component => Component
  | .components => List Component
  | .properties => List ComponentProperty
  | .property => ComponentProperty
  | .text => String
  | .uploadResponse => vexUploadResponse

/-- The methods of `*Client` and the option constructors the two files use and
do not define. `σ` is the state of the client and of what is behind it; every
method may read and change it. `doRequest` returns the new value of its
destination next to its two results. -/
structure Client (σ : Type) where
  assertServerVersionAtLeast : String → σ → Option Error × σ
  isServerVersionAtLeast : String → σ → Bool × σ
  newRequest : Context → String → String → List requestOption → σ → (Request × Option Error) × σ
  doRequest : (k : DestKind) → Request → k.type → σ → (k.type × apiResponse × Option Error) × σ
  withPageOptions : PageOptions → requestOption
  withSortOptions : SortOptions → requestOption
  withBody : Payload → requestOption

/-- One call of an operation on the client, with what the call returned. -/
inductive Call where
  | assertServerVersionAtLeast (targetVersion : String) (err : Option Error)
  | isServerVersionAtLeast (targetVersion : String) (result : Bool)
  | newRequest (method path : String) (options : Nat) (err : Option Error)
  | doRequest (req : Request) (res : apiResponse) (err : Option Error)

/-- The state an operation runs in: the client's state and the calls made so far. -/
structure World (σ : Type) where
  state : σ
  log : List Call

variable {σ : Type}

/-- The call `cs.client.assertServerVersionAtLeast(v)`. -/
def callAssert (cl : Client σ) (v : String) (w : World σ) : Option Error × World σ :=
  match cl.assertServerVersionAtLeast v w.state with
  | (err, s) => (err, ⟨s, w.log ++ [Call.assertServerVersionAtLeast v err]⟩)

/-- The call `cs.client.isServerVersionAtLeast(v)`. -/
def callIsAtLeast (cl : Client σ) (v : String) (w : World σ) : Bool × World σ :=
  match cl.isServerVersionAtLeast v w.state with
  | (b, s) => (b, ⟨s, w.log ++ [Call.isServerVersionAtLeast v b]⟩)

/-- The call `cs.client.newRequest(ctx, method, path, options...)`. -/
def callNewRequest (cl : Client σ) (ctx : Context) (method path : String)
    (options : List requestOption) (w : World σ) : (Request × Option Error) × World σ :=
  match cl.newRequest ctx method path options w.state with
  | ((req, err), s) => ((req, err), ⟨s, w.log ++ [Call.newRequest method path options.length err]⟩)

/-- The call `cs.client.doRequest(req, v)`. -/
def callDoRequest (cl : Client σ) (k : DestKind) (req : Request) (v : k.type) (w : World σ) :
    (k.type × apiResponse × Option Error) × World σ :=
  match cl.doRequest k req v w.state with
  | ((v, res, err), s) => ((v, res, err), ⟨s, w.log ++ [Call.doRequest req res err]⟩)

/-! ## component.go -/

/-- Go `len(s) > 0` for a string. -/
def nonEmpty (s : String) : Bool := decide (0 < s.utf8ByteSize)

def withComponentFilterOptions (filterOptions : ComponentFilterOptions) : requestOption :=
  fun req =>
    let query := req.URL.Query
    let query := if filterOptions.OnlyDirect then query.Set "onlyDirect" "true" else query
    let query := if filterOptions.OnlyOutdated then query.Set "onlyOutdated" "true" else query
    ({ req with URL := { req.URL with Query := query } }, none)

def withComponentIdentityOptions (identityOptions : ComponentIdentityQueryOptions) : requestOption :=
  fun req =>
    let query := req.URL.Query
    let query := if nonEmpty identityOptions.Group then query.Set "group" identityOptions.Group else query
    let query := if nonEmpty identityOptions.Name then query.Set "name" identityOptions.Name else query
    let query := if nonEmpty identityOptions.Version then query.Set "version" identityOptions.Version else query
    let query := if nonEmpty identityOptions.PURL then query.Set "purl" identityOptions.PURL else query
    let query := if nonEmpty identityOptions.CPE then query.Set "cpe" identityOptions.CPE else query
    let query := if nonEmpty identityOptions.SWIDTagID then query.Set "swidTagId" identityOptions.SWIDTagID else query
    let query := if identityOptions.Project ≠ UUID.Nil then query.Set "project" identityOptions.Project.String else query
    ({ req with URL := { req.URL with Query := query } }, none)

def Get (cl : Client σ) (ctx : Context) (componentUUID : UUID) (w : World σ) :
    (Component × Option Error) × World σ :=
  let c : Component := default
  match callAssert cl "3.0.0" w with
  | (some err, w) => ((c, some err), w)
  | (none, w) =>
    match callNewRequest cl ctx MethodGet ("api/v1/component/" ++ componentUUID.String) [] w with
    | ((_, some err), w) => ((c, some err), w)
    | ((req, none), w) =>
      match callDoRequest cl .component req c w with
      | ((c, _, err), w) => ((c, err), w)

def GetAll (cl : Client σ) (ctx : Context) (projectUUID : UUID) (po : PageOptions)
    (filterOptions : ComponentFilterOptions) (w : World σ) :
    (Page Component × Option Error) × World σ :=
  let p : Page Component := { Items := [], TotalCount := 0 }
  match callAssert cl "4.0.0" w with
  | (some err, w) => ((p, some err), w)
  | (none, w) =>
    match callNewRequest cl ctx MethodGet ("api/v1/component/project/" ++ projectUUID.String)
        [cl.withPageOptions po, withComponentFilterOptions filterOptions] w with
    | ((_, some err), w) => ((p, some err), w)
    | ((req, none), w) =>
      match callDoRequest cl .components req p.Items w with
      | ((items, _, some err), w) => (({ p with Items := items }, some err), w)
      | ((items, res, none), w) => (({ Items := items, TotalCount := res.TotalCount }, none), w)

def Create (cl : Client σ) (ctx : Context) (projectUUID : UUID) (component : Component)
    (w : World σ) : (Component × Option Error) × World σ :=
  let c : Component := default
  match callAssert cl "3.0.0" w with
  | (some err, w) => ((c, some err), w)
  | (none, w) =>
    match callNewRequest cl ctx MethodPut ("api/v1/component/project/" ++ projectUUID.String)
        [cl.withBody (.component component)] w with
    | ((_, some err), w) => ((c, some err), w)
    | ((req, none), w) =>
      match callDoRequest cl .component req c w with
      | ((c, _, err), w) => ((c, err), w)

def Update (cl : Client σ) (ctx : Context) (component : Component) (w : World σ) :
    (Component × Option Error) × World σ :=
  let c : Component := default
  match callAssert cl "3.0.0" w with
  | (some err, w) => ((c, some err), w)
  | (none, w) =>
    match callNewRequest cl ctx MethodPost "api/v1/component" [cl.withBody (.component component)] w with
    | ((_, some err), w) => ((c, some err), w)
    | ((req, none), w) =>
      match callDoRequest cl .component req c w with
      | ((c, _, err), w) => ((c, err), w)

def Delete (cl : Client σ) (ctx : Context) (componentUUID : UUID) (w : World σ) :
    Option Error × World σ :=
  match callAssert cl "3.0.0" w with
  | (some err, w) => (some err, w)
  | (none, w) =>
    match callNewRequest cl ctx MethodDelete ("api/v1/component/" ++ componentUUID.String) [] w with
    | ((_, some err), w) => (some err, w)
    | ((req, none), w) =>
      match callDoRequest cl .none req () w with
      | ((_, _, err), w) => (err, w)

def GetProperties (cl : Client σ) (ctx : Context) (componentUUID : UUID) (w : World σ) :
    (List ComponentProperty × Option Error) × World σ :=
  let ps : List ComponentProperty := []
  match callAssert cl "4.11.0" w with
  | (some err, w) => ((ps, some err), w)
  | (none, w) =>
    match callNewRequest cl ctx MethodGet
        ("api/v1/component/" ++ componentUUID.String ++ "/property") [] w with
    | ((_, some err), w) => ((ps, some err), w)
    | ((req, none), w) =>
      match callDoRequest cl .properties req ps w with
      | ((ps, _, err), w) => ((ps, err), w)

def CreateProperty (cl : Client σ) (ctx : Context) (componentUUID : UUID)
    (property : ComponentProperty) (w : World σ) :
    (ComponentProperty × Option Error) × World σ :=
  let p : ComponentProperty := default
  match callAssert cl "4.11.0" w with
  | (some err, w) => ((p, some err), w)
  | (none, w) =>
    match callNewRequest cl ctx MethodPut
        ("api/v1/component/" ++ componentUUID.String ++ "/property")
        [cl.withBody (.property property)] w with
    | ((_, some err), w) => ((p, some err), w)
    | ((req, none), w) =>
      match callDoRequest cl .property req p w with
      | ((p, _, err), w) => ((p, err), w)

def DeleteProperty (cl : Client σ) (ctx : Context) (componentUUID propertyUUID : UUID)
    (w : World σ) : Option Error × World σ :=
  match callAssert cl "4.11.0" w with
  | (some err, w) => (some err, w)
  | (none, w) =>
    match callNewRequest cl ctx MethodDelete
        ("api/v1/component/" ++ componentUUID.String ++ "/property/" ++ propertyUUID.String)
        [] w with
    | ((_, some err), w) => (some err, w)
    | ((req, none), w) =>
      match callDoRequest cl .none req () w with
      | ((_, _, err), w) => (err, w)

def GetByHash (cl : Client σ) (ctx : Context) (hash : String) (po : PageOptions)
    (so : SortOptions) (w : World σ) : (Page Component × Option Error) × World σ :=
  let p : Page Component := { Items := [], TotalCount := 0 }
  match callAssert cl "3.0.0" w with
  | (some err, w) => ((p, some err), w)
  | (none, w) =>
    match callNewRequest cl ctx MethodGet ("api/v1/component/hash/" ++ hash)
        [cl.withPageOptions po, cl.withSortOptions so] w with
    | ((_, some err), w) => ((p, some err), w)
    | ((req, none), w) =>
      match callDoRequest cl .components req p.Items w with
      | ((items, _, some err), w) => (({ p with Items := items }, some err), w)
      | ((items, res, none), w) =>
        match callIsAtLeast cl "4.0.0" w with
        | (true, w) => (({ Items := items, TotalCount := res.TotalCount }, none), w)
        | (false, w) => (({ Items := items, TotalCount := (items.length : Int) }, none), w)

def GetByIdentity (cl : Client σ) (ctx : Context) (po : PageOptions) (so : SortOptions)
    (identity : ComponentIdentityQueryOptions) (w : World σ) :
    (Page Component × Option Error) × World σ :=
  let p : Page Component := { Items := [], TotalCount := 0 }
  match callAssert cl "4.0.0" w with
  | (some err, w) => ((p, some err), w)
  | (none, w) =>
    match callNewRequest cl ctx MethodGet "api/v1/component/identity"
        [cl.withPageOptions po, cl.withSortOptions so, withComponentIdentityOptions identity] w with
    | ((_, some err), w) => ((p, some err), w)
    | ((req, none), w) =>
      match callDoRequest cl .components req p.Items w with
      | ((items, _, some err), w) => (({ p with Items := items }, some err), w)
      | ((items, res, none), w) => (({ Items := items, TotalCount := res.TotalCount }, none), w)

def IdentifyInternal (cl : Client σ) (ctx : Context) (w : World σ) : Option Error × World σ :=
  match callAssert cl "4.0.0" w with
  | (some err, w) => (some err, w)
  | (none, w) =>
    match callNewRequest cl ctx MethodGet "api/v1/component/internal/identify" [] w with
    | ((_, some err), w) => (some err, w)
    | ((req, none), w) =>
      match callDoRequest cl .none req () w with
      | ((_, _, err), w) => (err, w)

/-! ## vex.go -/

def ExportCycloneDX (cl : Client σ) (ctx : Context) (projectUUID : UUID) (w : World σ) :
    (String × Option Error) × World σ :=
  let vex : String := ""
  match callNewRequest cl ctx MethodGet ("api/v1/vex/cyclonedx/project/" ++ projectUUID.String)
      [] w with
  | ((_, some err), w) => ((vex, some err), w)
  | ((req, none), w) =>
    let req := { req with Header := req.Header.Set "Accept" "application/vnd.cyclonedx+json" }
    match callDoRequest cl .text req vex w with
    | ((vex, _, err), w) => ((vex, err), w)

def Upload (cl : Client σ) (ctx : Context) (uploadReq : VEXUploadRequest) (w : World σ) :
    (VEXUploadToken × Option Error) × World σ :=
  let token : VEXUploadToken := ""
  match callNewRequest cl ctx MethodPut "api/v1/vex" [cl.withBody (.vexUpload uploadReq)] w with
  | ((_, some err), w) => ((token, some err), w)
  | ((req, none), w) =>
    let uploadRes : vexUploadResponse := default
    match callDoRequest cl .uploadResponse req uploadRes w with
    | ((uploadRes, _, err), w) => ((uploadRes.Token, err), w)

/-! ## The operations as one family -/

/-- The thirteen operations of the two files, each with its arguments. -/
inductive Operation where
  | Get (componentUUID : UUID)
  | GetAll (projectUUID : UUID) (po : PageOptions) (filterOptions : ComponentFilterOptions)
  | Create (projectUUID : UUID) (component : Component)
  | Update (component : Component)
  | Delete (componentUUID : UUID)
  | GetProperties (componentUUID : UUID)
  | CreateProperty (componentUUID : UUID) (property : ComponentProperty)
  | DeleteProperty (componentUUID propertyUUID : UUID)
  | GetByHash (hash : String) (po : PageOptions) (so : SortOptions)
  | GetByIdentity (po : PageOptions) (so : SortOptions) (identity : ComponentIdentityQueryOptions)
  | IdentifyInternal
  | ExportCycloneDX (projectUUID : UUID)
  | Upload (uploadReq : VEXUploadRequest)

/-- The error an operation returns and the world it leaves behind. -/
def Operation.run (cl : Client σ) (ctx : Context) (op : Operation) (w : World σ) :
    Option Error × World σ :=
  match op with
  | .Get u => ((dtrack.Get cl ctx u w).1.2, (dtrack.Get cl ctx u w).2)
  | .GetAll u po f => ((dtrack.GetAll cl ctx u po f w).1.2, (dtrack.GetAll cl ctx u po f w).2)
  | .Create u c => ((dtrack.Create cl ctx u c w).1.2, (dtrack.Create cl ctx u c w).2)
  | .Update c => ((dtrack.Update cl ctx c w).1.2, (dtrack.Update cl ctx c w).2)
  | .Delete u => dtrack.Delete cl ctx u w
  | .GetProperties u => ((dtrack.GetProperties cl ctx u w).1.2, (dtrack.GetProperties cl ctx u w).2)
  | .CreateProperty u p =>
    ((dtrack.CreateProperty cl ctx u p w).1.2, (dtrack.CreateProperty cl ctx u p w).2)
  | .DeleteProperty u v => dtrack.DeleteProperty cl ctx u v w
  | .GetByHash h po so =>
    ((dtrack.GetByHash cl ctx h po so w).1.2, (dtrack.GetByHash cl ctx h po so w).2)
  | .GetByIdentity po so i =>
    ((dtrack.GetByIdentity cl ctx po so i w).1.2, (dtrack.GetByIdentity cl ctx po so i w).2)
  | .IdentifyInternal => dtrack.IdentifyInternal cl ctx w
  | .ExportCycloneDX u =>
    ((dtrack.ExportCycloneDX cl ctx u w).1.2, (dtrack.ExportCycloneDX cl ctx u w).2)
  | .Upload r => ((dtrack.Upload cl ctx r w).1.2, (dtrack.Upload cl ctx r w).2)

/-- The version an operation hands to `assertServerVersionAtLeast` before anything else;
`none` for the two operations of `vex.go`, which do not call it. -/
def Operation.gate : Operation → Option String
  | .Get _ | .Create _ _ | .Update _ | .Delete _ | .GetByHash _ _ _ => some "3.0.0"
  | .GetAll _ _ _ | .GetByIdentity _ _ _ | .IdentifyInternal => some "4.0.0"
  | .GetProperties _ | .CreateProperty _ _ | .DeleteProperty _ _ => some "4.11.0"
  | .ExportCycloneDX _ | .Upload _ => none

/-- The calls made between two worlds: what the later log has beyond the earlier one. -/
def issued (w w' : World σ) : List Call := w'.log.drop w.log.length

/-- The version a call of the gate was given. -/
def Call.gateVersion : Call → Option String
  | .assertServerVersionAtLeast v _ => some v
  | _ => none

/-- The method and path a call of `newRequest` was given. -/
def Call.built : Call → Option (String × String)
  | .newRequest method path _ _ => some (method, path)
  | _ => none

/-- Whether a call is a call of `newRequest`. -/
def Call.isNewRequest : Call → Bool
  | .newRequest _ _ _ _ => true
  | _ => false

/-- Whether a call is a call of `doRequest`. -/
def Call.isDoRequest : Call → Bool
  | .doRequest _ _ _ => true
  | _ => false

/-- Whether a call is a call of the gate that returned an error. -/
def Call.isGateError : Call → Bool
  | .assertServerVersionAtLeast _ (some _) => true
  | _ => false

/-- The shape the thirteen operations share: an optional gate, one request
built from a method, a path and options, a change to the built request, one
execution into a destination, and for the hash lookup a question to the
version registry after a successful execution. -/
structure Shape where
  gate : Option String
  method : String
  path : String
  options : List requestOption
  prepare : Request → Request
  kind : DestKind
  dest : kind.type
  shim : Bool

/-- The error and the world of running a shape. -/
def Shape.run (cl : Client σ) (ctx : Context) (s : Shape) (w : World σ) :
    Option Error × World σ :=
  let g : Option Error × World σ :=
    match s.gate with
    | some v => callAssert cl v w
    | none => (none, w)
  match g with
  | (some err, w) => (some err, w)
  | (none, w) =>
    match callNewRequest cl ctx s.method s.path s.options w with
    | ((_, some err), w) => (some err, w)
    | ((req, none), w) =>
      match callDoRequest cl s.kind (s.prepare req) s.dest w with
      | ((_, _, some err), w) => (some err, w)
      | ((_, _, none), w) => if s.shim then (none, (callIsAtLeast cl "4.0.0" w).2) else (none, w)

/-- The shape of each operation. -/
def Operation.shape (cl : Client σ) : Operation → Shape
  | .Get u => ⟨some "3.0.0", MethodGet, "api/v1/component/" ++ u.String, [], id, .component, (default : Component), false⟩
  | .GetAll u po f =>
    ⟨some "4.0.0", MethodGet, "api/v1/component/project/" ++ u.String,
      [cl.withPageOptions po, withComponentFilterOptions f], id, .components, ([] : List Component), false⟩
  | .Create u c =>
    ⟨some "3.0.0", MethodPut, "api/v1/component/project/" ++ u.String,
      [cl.withBody (.component c)], id, .component, (default : Component), false⟩
  | .Update c =>
    ⟨some "3.0.0", MethodPost, "api/v1/component", [cl.withBody (.component c)], id,
      .component, (default : Component), false⟩
  | .Delete u => ⟨some "3.0.0", MethodDelete, "api/v1/component/" ++ u.String, [], id, .none, (), false⟩
  | .GetProperties u =>
    ⟨some "4.11.0", MethodGet, "api/v1/component/" ++ u.String ++ "/property", [], id,
      .properties, ([] : List ComponentProperty), false⟩
  | .CreateProperty u p =>
    ⟨some "4.11.0", MethodPut, "api/v1/component/" ++ u.String ++ "/property",
      [cl.withBody (.property p)], id, .property, (default : ComponentProperty), false⟩
  | .DeleteProperty u v =>
    ⟨some "4.11.0", MethodDelete, "api/v1/component/" ++ u.String ++ "/property/" ++ v.String,
      [], id, .none, (), false⟩
  | .GetByHash h po so =>
    ⟨some "3.0.0", MethodGet, "api/v1/component/hash/" ++ h,
      [cl.withPageOptions po, cl.withSortOptions so], id, .components, ([] : List Component), true⟩
  | .GetByIdentity po so i =>
    ⟨some "4.0.0", MethodGet, "api/v1/component/identity",
      [cl.withPageOptions po, cl.withSortOptions so, withComponentIdentityOptions i], id,
      .components, ([] : List Component), false⟩
  | .IdentifyInternal =>
    ⟨some "4.0.0", MethodGet, "api/v1/component/internal/identify", [], id, .none, (), false⟩
  | .ExportCycloneDX u =>
    ⟨none, MethodGet, "api/v1/vex/cyclonedx/project/" ++ u.String, [],
      fun req => { req with Header := req.Header.Set "Accept" "application/vnd.cyclonedx+json" },
      .text, ("" : String), false⟩
  | .Upload r =>
    ⟨none, MethodPut, "api/v1/vex", [cl.withBody (.vexUpload r)], id, .uploadResponse, (default : vexUploadResponse), false⟩

/-- The gate calls of a run whose gate, if any, let the operation through. -/
def Shape.passed (s : Shape) : List Call :=
  s.gate.toList.map (fun v => Call.assertServerVersionAtLeast v none)

/-! ## The two option mutators as overrides of the query map -/

/-- A map with some keys overridden: where `o` has a value it wins, elsewhere the map is kept. -/
def Values.override (v : Values) (o : String → Option (List String)) : Values :=
  ⟨fun k => match o k with
    | some x => some x
    | none => v.lookup k⟩

/-- What `withComponentFilterOptions` writes at a key. -/
def filterWrites (f : ComponentFilterOptions) (k : String) : Option (List String) :=
  if k = "onlyOutdated" then (if f.OnlyOutdated then some ["true"] else none)
  else if k = "onlyDirect" then (if f.OnlyDirect then some ["true"] else none)
  else none

/-- What `withComponentIdentityOptions` writes at a key. -/
def identityWrites (i : ComponentIdentityQueryOptions) (k : String) : Option (List String) :=
  if k = "project" then (if i.Project ≠ UUID.Nil then some [i.Project.String] else none)
  else if k = "swidTagId" then (if nonEmpty i.SWIDTagID then some [i.SWIDTagID] else none)
  else if k = "cpe" then (if nonEmpty i.CPE then some [i.CPE] else none)
  else if k = "purl" then (if nonEmpty i.PURL then some [i.PURL] else none)
  else if k = "version" then (if nonEmpty i.Version then some [i.Version] else none)
  else if k = "name" then (if nonEmpty i.Name then some [i.Name] else none)
  else if k = "group" then (if nonEmpty i.Group then some [i.Group] else none)
  else none

/-! ## A simulated server -/

/-- Modelled from the spec: ServerVersion of section 3, an ordered triple of numbers. -/
structure ServerVersion where
  major : Nat
  minor : Nat
  patch : Nat
deriving DecidableEq

/-- The decimal fields of a dotted version, read left to right. -/
def versionFields : List Char → Nat → List Nat
  | [], cur => [cur]
  | c :: cs, cur =>
    if c = '.' then cur :: versionFields cs 0 else versionFields cs (cur * 10 + (c.toNat - 48))

/-- Modelled from the spec: a version string read as a ServerVersion. -/
def parseVersion (s : String) : ServerVersion :=
  match versionFields s.data 0 with
  | a :: b :: c :: _ => ⟨a, b, c⟩
  | _ => ⟨0, 0, 0⟩

/-- Modelled from the spec: the comparison of section 4.1, field by field, major first. -/
def ServerVersion.atLeast (actual required : ServerVersion) : Bool :=
  decide (required.major < actual.major) ||
    (decide (required.major = actual.major) &&
      (decide (required.minor < actual.minor) ||
        (decide (required.minor = actual.minor) && decide (required.patch ≤ actual.patch))))

/-- A simulated server and the client's connection to it: its version, the
items and the total-count metadata it answers with, the errors request
construction and execution are to fail with, and the number of requests
executed so far. -/
structure SimServer where
  version : String
  items : List Component
  totalCount : Int
  buildError : Option Error
  execError : Option Error
  executed : Nat

/-- Modelled from the spec: `build` of section 4.2 folds the options over the request left to
right and stops at the first failure. -/
def applyOptions : List requestOption → Request → Request × Option Error
  | [], req => (req, none)
  | o :: os, req =>
    match o req with
    | (req, some e) => (req, some e)
    | (req, none) => applyOptions os req

/-- What the simulated server decodes into a destination: its items into a list of
components, nothing into the others. -/
def SimServer.decode (s : SimServer) : (k : DestKind) → k.type → k.type
  | .components, _ => s.items
  | .none, v => v
  | .component, v => v
  | .properties, v => v
  | .property, v => v
  | .text, v => v
  | .uploadResponse, v => v

/-- Modelled from the spec: a client of the simulated server, with the version registry of
section 4.1, the request builder of section 4.2 and an `execute` that answers with the
server's items and metadata. -/
def simClient : Client SimServer where
  assertServerVersionAtLeast := fun v s =>
    if (parseVersion s.version).atLeast (parseVersion v) then (none, s)
    else (some (Error.VersionError v s.version), s)
  isServerVersionAtLeast := fun v s => ((parseVersion s.version).atLeast (parseVersion v), s)
  newRequest := fun _ method path options s =>
    match s.buildError with
    | some e => ((⟨method, ⟨path, Values.empty⟩, Values.empty, none⟩, some e), s)
    | none => (applyOptions options ⟨method, ⟨path, Values.empty⟩, Values.empty, none⟩, s)
  doRequest := fun k _ v s =>
    match s.execError with
    | some e => ((v, ⟨0⟩, some e), { s with executed := s.executed + 1 })
    | none => ((s.decode k v, ⟨s.totalCount⟩, none), { s with executed := s.executed + 1 })
  withPageOptions := fun po req =>
    if 0 < po.PageNumber ∧ 0 < po.PageSize then
      ({ req with URL := { req.URL with
          Query := (req.URL.Query.Set "pageNumber" (toString po.PageNumber)).Set "pageSize"
            (toString po.PageSize) } }, none)
    else (req, none)
  withSortOptions := fun so req =>
    if so.Name ≠ "" then
      ({ req with URL := { req.URL with
          Query := (req.URL.Query.Set "sortName" so.Name).Set "sortOrder" so.Order } }, none)
    else (req, none)
  withBody := fun _ req => ({ req with Body := some "body" }, none)

/-- A simulated server of the given version with the given items and metadata, where
nothing fails. -/
def simServer (version : String) (items : List Component) (totalCount : Int) : World SimServer :=
  ⟨⟨version, items, totalCount, none, none, 0⟩, []⟩

/-- A context that is not cancelled. -/
def background : Context := ⟨false⟩

/-- The three operations that return a page. -/
inductive PageOperation where
  | GetAll (projectUUID : UUID) (po : PageOptions) (filterOptions : ComponentFilterOptions)
  | GetByHash (hash : String) (po : PageOptions) (so : SortOptions)
  | GetByIdentity (po : PageOptions) (so : SortOptions) (identity : ComponentIdentityQueryOptions)

/-- The page and the error a page operation returns, and the world it leaves behind. -/
def PageOperation.run (cl : Client σ) (ctx : Context) (op : PageOperation) (w : World σ) :
    (Page Component × Option Error) × World σ :=
  match op with
  | .GetAll u po f => dtrack.GetAll cl ctx u po f w
  | .GetByHash h po so => dtrack.GetByHash cl ctx h po so w
  | .GetByIdentity po so i => dtrack.GetByIdentity cl ctx po so i w

/-! ## Concrete inputs -/

/-- A request with an empty query, as the request builder starts from. -/
def baseRequest : Request := ⟨"GET", ⟨"api/v1/component/identity", Values.empty⟩, Values.empty, none⟩

/-- The identity options with only Name set, to "foo". -/
def nameFoo : ComponentIdentityQueryOptions := ⟨"", "foo", "", "", "", "", UUID.Nil⟩

/-- A simulated server whose request execution fails with a transport error. -/
def failingServer : World SimServer :=
  ⟨⟨"4.11.0", [], 0, none, some (Error.TransportError "connection refused"), 0⟩, []⟩

/-! ## Theorems -/

/-- Running an operation is running its shape. -/
theorem Operation.run_eq_shape (cl : Client σ) (ctx : Context) (op : Operation) (w : World σ) :
    op.run cl ctx w = (op.shape cl).run cl ctx w := by
  cases op <;>
    simp only [Operation.run, Operation.shape, Shape.run, dtrack.Get, dtrack.GetAll, dtrack.Create,
      dtrack.Update, dtrack.Delete, dtrack.GetProperties, dtrack.CreateProperty,
      dtrack.DeleteProperty, dtrack.GetByHash, dtrack.GetByIdentity, dtrack.IdentifyInternal,
      dtrack.ExportCycloneDX, dtrack.Upload] <;>
    (repeat' split) <;> simp_all

/-- The five ways a run can go, with the error it returns and the calls it logs. -/
theorem Shape.run_cases (cl : Client σ) (ctx : Context) (s : Shape) (w : World σ) :
    ∃ l, (s.run cl ctx w).2.log = w.log ++ l ∧
      ((∃ v e, s.gate = some v ∧ l = [Call.assertServerVersionAtLeast v (some e)] ∧
          (s.run cl ctx w).1 = some e) ∨
       (∃ e, l = s.passed ++ [Call.newRequest s.method s.path s.options.length (some e)] ∧
          (s.run cl ctx w).1 = some e) ∨
       (∃ req res e, l = s.passed ++ [Call.newRequest s.method s.path s.options.length none,
            Call.doRequest req res (some e)] ∧ (s.run cl ctx w).1 = some e) ∨
       (∃ req res, s.shim = false ∧
          l = s.passed ++ [Call.newRequest s.method s.path s.options.length none,
            Call.doRequest req res none] ∧ (s.run cl ctx w).1 = none) ∨
       (∃ req res b, s.shim = true ∧
          l = s.passed ++ [Call.newRequest s.method s.path s.options.length none,
            Call.doRequest req res none, Call.isServerVersionAtLeast "4.0.0" b] ∧
          (s.run cl ctx w).1 = none)) := by
  obtain ⟨gate, method, path, options, prepare, kind, dest, shim⟩ := s
  cases gate with
  | none =>
    simp only [Shape.run, Shape.passed, callNewRequest, callDoRequest, callIsAtLeast]
    rcases hN : cl.newRequest ctx method path options w.state with ⟨⟨req, _ | e⟩, s1⟩
    · rcases hD : cl.doRequest kind (prepare req) dest s1 with ⟨⟨v, res, _ | e⟩, s2⟩
      · cases shim <;> simp [hN, hD]
        exact ⟨prepare req, res, by cases (cl.isServerVersionAtLeast "4.0.0" s2).1 <;> simp⟩
      · simp [hN, hD]
    · simp [hN]
  | some v =>
    simp only [Shape.run, Shape.passed, callAssert, callNewRequest, callDoRequest, callIsAtLeast]
    rcases hA : cl.assertServerVersionAtLeast v w.state with ⟨_ | e, s0⟩
    · rcases hN : cl.newRequest ctx method path options s0 with ⟨⟨req, _ | e⟩, s1⟩
      · rcases hD : cl.doRequest kind (prepare req) dest s1 with ⟨⟨v, res, _ | e⟩, s2⟩
        · cases shim <;> simp [hA, hN, hD]
          exact ⟨prepare req, res, by cases (cl.isServerVersionAtLeast "4.0.0" s2).1 <;> simp⟩
        · simp [hA, hN, hD]
      · simp [hA, hN]
    · simp [hA]

theorem nonEmpty_iff (s : String) : nonEmpty s = true ↔ s ≠ "" := by
  obtain ⟨data⟩ := s
  cases data with
  | nil => simp [nonEmpty, String.utf8ByteSize, String.utf8ByteSize.go]
  | cons c cs =>
    have hc := Char.utf8Size_pos c
    have hne : (String.mk (c :: cs)) ≠ "" := by
      intro h
      have := congrArg String.data h
      simp at this
    simp only [nonEmpty, String.utf8ByteSize, String.utf8ByteSize.go, decide_eq_true_eq, ne_eq,
      hne, not_false_eq_true, iff_true]
    omega

theorem Values.Set_eq_override (v : Values) (key value : String) :
    v.Set key value = v.override (fun k => if k = key then some [value] else none) := by
  ext k : 2
  simp only [Values.Set, Values.override]
  split_ifs <;> rfl

theorem Values.override_override (v : Values) (o p : String → Option (List String)) :
    (v.override o).override p =
      v.override (fun k => match p k with
        | some x => some x
        | none => o k) := by
  ext k : 2
  simp only [Values.override]
  cases p k <;> rfl

/-- The filter mutator overrides the query with `filterWrites`, touches nothing else and
returns no error. -/
theorem withComponentFilterOptions_eq (f : ComponentFilterOptions) (req : Request) :
    withComponentFilterOptions f req =
      ({ req with URL := { req.URL with Query := req.URL.Query.override (filterWrites f) } }, none) := by
  obtain ⟨outdated, direct⟩ := f
  have hq : ∀ q q2 : Values, q = q2 →
      (({ req with URL := { req.URL with Query := q } }, none) : Request × Option Error) =
        ({ req with URL := { req.URL with Query := q2 } }, none) := by
    intro q q2 h; rw [h]
  simp only [withComponentFilterOptions]
  apply hq
  ext k : 2
  cases outdated <;> cases direct <;>
    simp only [Values.Set, Values.override, filterWrites, if_true, if_false, Bool.false_eq_true] <;>
    (repeat' split) <;> simp_all

theorem Values.setIf_eq_override (c : Prop) [Decidable c] (v : Values) (key value : String) :
    (if c then v.Set key value else v) =
      v.override (fun k => if k = key then (if c then some [value] else none) else none) := by
  by_cases h : c
  · simp only [h, if_true, Values.Set_eq_override]
  · simp only [h, if_false]
    ext k : 2
    simp only [Values.override]
    split_ifs <;> rfl

/-- The identity mutator overrides the query with `identityWrites`, touches nothing else and
returns no error. -/
theorem withComponentIdentityOptions_eq (i : ComponentIdentityQueryOptions) (req : Request) :
    withComponentIdentityOptions i req =
      ({ req with URL := { req.URL with Query := req.URL.Query.override (identityWrites i) } }, none) := by
  have hq : ∀ q q2 : Values, q = q2 →
      (({ req with URL := { req.URL with Query := q } }, none) : Request × Option Error) =
        ({ req with URL := { req.URL with Query := q2 } }, none) := by
    intro q q2 h; rw [h]
  simp only [withComponentIdentityOptions]
  apply hq
  simp only [Values.setIf_eq_override, Values.override_override]
  congr 1
  funext k
  simp only [identityWrites]
  by_cases h1 : k = "project"
  · subst h1; simp; split <;> (rename_i h; exact h.symm)
  by_cases h2 : k = "swidTagId"
  · subst h2; simp; split <;> (rename_i h; exact h.symm)
  by_cases h3 : k = "cpe"
  · subst h3; simp; split <;> (rename_i h; exact h.symm)
  by_cases h4 : k = "purl"
  · subst h4; simp; split <;> (rename_i h; exact h.symm)
  by_cases h5 : k = "version"
  · subst h5; simp; split <;> (rename_i h; exact h.symm)
  by_cases h6 : k = "name"
  · subst h6; simp; split <;> (rename_i h; exact h.symm)
  by_cases h7 : k = "group"
  · subst h7; simp
  simp [h1, h2, h3, h4, h5, h6, h7]

theorem issued_of_log (w w' : World σ) (l : List Call) (h : w'.log = w.log ++ l) :
    issued w w' = l := by
  simp [issued, h]

/-- A run whose gate returns an error stops there. -/
theorem Shape.run_gate_error (cl : Client σ) (ctx : Context) (s : Shape) (w : World σ)
    (v : String) (e : Error) (hv : s.gate = some v)
    (he : (cl.assertServerVersionAtLeast v w.state).1 = some e) :
    s.run cl ctx w = (some e, ⟨(cl.assertServerVersionAtLeast v w.state).2,
      w.log ++ [Call.assertServerVersionAtLeast v (some e)]⟩) := by
  rcases hA : cl.assertServerVersionAtLeast v w.state with ⟨r, s0⟩
  rw [hA] at he
  simp only at he
  subst he
  simp [Shape.run, hv, callAssert, hA]

theorem Operation.shape_gate (cl : Client σ) (op : Operation) : (op.shape cl).gate = op.gate := by
  cases op <;> rfl

/-- C1: if the version gate of an operation, `assertServerVersionAtLeast` called with the
operation's version in the client's current state, returns an error, the operation returns
exactly that error, and the gate call is the only call it makes on the client: neither
`newRequest` nor `doRequest` is called, and the client is left in the state the gate left. -/
theorem gate_error_returned_before_any_request (cl : Client σ) (ctx : Context) (op : Operation)
    (w : World σ) (v : String) (e : Error) (hv : op.gate = some v)
    (he : (cl.assertServerVersionAtLeast v w.state).1 = some e) :
    (op.run cl ctx w).1 = some e ∧
      issued w (op.run cl ctx w).2 = [Call.assertServerVersionAtLeast v (some e)] ∧
      (issued w (op.run cl ctx w).2).all (fun c => !c.isNewRequest && !c.isDoRequest) = true ∧
      (op.run cl ctx w).2.state = (cl.assertServerVersionAtLeast v w.state).2 := by
  rw [Operation.run_eq_shape,
    Shape.run_gate_error cl ctx (op.shape cl) w v e (by rw [Operation.shape_gate, hv]) he]
  refine ⟨rfl, ?_, ?_, rfl⟩
  · exact issued_of_log _ _ _ rfl
  · rw [issued_of_log w _ [Call.assertServerVersionAtLeast v (some e)] rfl]
    rfl

/-- C5: the versions the gate is called with. Get, Create, Update, Delete and GetByHash call
the gate once, with 3.0.0; GetAll, GetByIdentity and IdentifyInternal once, with 4.0.0;
GetProperties, CreateProperty and DeleteProperty once, with 4.11.0; ExportCycloneDX and
Upload never call it. -/
theorem gate_versions (cl : Client σ) (ctx : Context) (op : Operation) (w : World σ) :
    (issued w (op.run cl ctx w).2).filterMap Call.gateVersion =
      match op with
      | .Get _ | .Create _ _ | .Update _ | .Delete _ | .GetByHash _ _ _ => ["3.0.0"]
      | .GetAll _ _ _ | .GetByIdentity _ _ _ | .IdentifyInternal => ["4.0.0"]
      | .GetProperties _ | .CreateProperty _ _ | .DeleteProperty _ _ => ["4.11.0"]
      | .ExportCycloneDX _ | .Upload _ => [] := by
  have key : (issued w (op.run cl ctx w).2).filterMap Call.gateVersion
      = (op.shape cl).gate.toList := by
    rw [Operation.run_eq_shape]
    obtain ⟨l, hl, hc⟩ := Shape.run_cases cl ctx (op.shape cl) w
    rw [issued_of_log _ _ l hl]
    rcases hc with ⟨v', e', hg, rfl, -⟩ | ⟨e', rfl, -⟩ | ⟨req, res, e', rfl, -⟩ |
      ⟨req, res, -, rfl, -⟩ | ⟨req, res, b, -, rfl, -⟩
    · simp [hg, Call.gateVersion]
    all_goals
      cases hg : (op.shape cl).gate <;> simp [Shape.passed, hg, Call.gateVersion]
  rw [key]
  cases op <;> rfl

/-- C7: an error returned by `newRequest` or by `doRequest` is the error the operation
returns, and an operation calls `doRequest` at most once. -/
theorem request_errors_returned_unchanged (cl : Client σ) (ctx : Context) (op : Operation)
    (w : World σ) :
    (∀ method path n e, Call.newRequest method path n (some e) ∈ issued w (op.run cl ctx w).2 →
        (op.run cl ctx w).1 = some e) ∧
      (∀ req res e, Call.doRequest req res (some e) ∈ issued w (op.run cl ctx w).2 →
        (op.run cl ctx w).1 = some e) ∧
      ((issued w (op.run cl ctx w).2).filter Call.isDoRequest).length ≤ 1 := by
  rw [Operation.run_eq_shape]
  obtain ⟨l, hl, hc⟩ := Shape.run_cases cl ctx (op.shape cl) w
  rw [issued_of_log _ _ l hl]
  rcases hc with ⟨v', e', hg, rfl, he⟩ | ⟨e', rfl, he⟩ | ⟨req, res, e', rfl, he⟩ |
    ⟨req, res, -, rfl, he⟩ | ⟨req, res, b, -, rfl, he⟩
  · simp [Call.isDoRequest]
  all_goals
    cases hg : (op.shape cl).gate <;>
      simp [Shape.passed, hg, Call.isDoRequest, he, List.filter] <;>
      (intros; subst_vars; rfl)

/-- C8: the method and the path each operation gives to `newRequest`. An operation whose
gate returned an error builds no request; otherwise it builds exactly one, with the method
and the path of the table. -/
theorem request_method_and_path (cl : Client σ) (ctx : Context) (op : Operation)
    (w : World σ) :
    (issued w (op.run cl ctx w).2).filterMap Call.built =
      if (issued w (op.run cl ctx w).2).any Call.isGateError then []
      else [match op with
        | .Get u => ("GET", "api/v1/component/" ++ u.String)
        | .GetAll u _ _ => ("GET", "api/v1/component/project/" ++ u.String)
        | .Create u _ => ("PUT", "api/v1/component/project/" ++ u.String)
        | .Update _ => ("POST", "api/v1/component")
        | .Delete u => ("DELETE", "api/v1/component/" ++ u.String)
        | .GetProperties u => ("GET", "api/v1/component/" ++ u.String ++ "/property")
        | .CreateProperty u _ => ("PUT", "api/v1/component/" ++ u.String ++ "/property")
        | .DeleteProperty u v =>
          ("DELETE", "api/v1/component/" ++ u.String ++ "/property/" ++ v.String)
        | .GetByHash h _ _ => ("GET", "api/v1/component/hash/" ++ h)
        | .GetByIdentity _ _ _ => ("GET", "api/v1/component/identity")
        | .IdentifyInternal => ("GET", "api/v1/component/internal/identify")
        | .ExportCycloneDX u => ("GET", "api/v1/vex/cyclonedx/project/" ++ u.String)
        | .Upload _ => ("PUT", "api/v1/vex")] := by
  have key : (issued w (op.run cl ctx w).2).filterMap Call.built =
      if (issued w (op.run cl ctx w).2).any Call.isGateError then []
      else [((op.shape cl).method, (op.shape cl).path)] := by
    rw [Operation.run_eq_shape]
    obtain ⟨l, hl, hc⟩ := Shape.run_cases cl ctx (op.shape cl) w
    rw [issued_of_log _ _ l hl]
    rcases hc with ⟨v', e', hg, rfl, -⟩ | ⟨e', rfl, -⟩ | ⟨req, res, e', rfl, -⟩ |
      ⟨req, res, -, rfl, -⟩ | ⟨req, res, b, -, rfl, -⟩
    · simp [Call.built, Call.isGateError]
    all_goals
      cases hg : (op.shape cl).gate <;>
        simp [Shape.passed, hg, Call.built, Call.isGateError]
  rw [key]
  cases op <;> rfl

/-- C4: a hash lookup that returns no error has made four calls: the gate, `newRequest`,
`doRequest` with response metadata `res`, and the question whether the server version is at
least 4.0.0 with answer `b`. The page's TotalCount is the metadata's TotalCount when the
answer is yes and the number of items when it is no. -/
theorem GetByHash_total_count (cl : Client σ) (ctx : Context) (hash : String)
    (po : PageOptions) (so : SortOptions) (w : World σ)
    (hok : (GetByHash cl ctx hash po so w).1.2 = none) :
    ∃ req res b,
      issued w (GetByHash cl ctx hash po so w).2 =
        [Call.assertServerVersionAtLeast "3.0.0" none,
          Call.newRequest "GET" ("api/v1/component/hash/" ++ hash) 2 none,
          Call.doRequest req res none,
          Call.isServerVersionAtLeast "4.0.0" b] ∧
      (GetByHash cl ctx hash po so w).1.1.TotalCount =
        if b = true then res.TotalCount
        else ((GetByHash cl ctx hash po so w).1.1.Items.length : Int) := by
  simp only [GetByHash, callAssert, callNewRequest, callDoRequest, callIsAtLeast, issued,
    MethodGet] at hok ⊢
  rcases hA : cl.assertServerVersionAtLeast "3.0.0" w.state with ⟨_ | e, s0⟩
  · rcases hN : cl.newRequest ctx "GET" ("api/v1/component/hash/" ++ hash)
        [cl.withPageOptions po, cl.withSortOptions so] s0 with ⟨⟨req, _ | e⟩, s1⟩
    · rcases hD : cl.doRequest .components req [] s1 with ⟨⟨items, res, _ | e⟩, s2⟩
      · rcases hV : cl.isServerVersionAtLeast "4.0.0" s2 with ⟨_ | _, s3⟩
        · exact ⟨req, res, false, by simp [hA, hN, hD, hV]⟩
        · exact ⟨req, res, true, by simp [hA, hN, hD, hV]⟩
      · simp [hA, hN, hD] at hok
    · simp [hA, hN] at hok
  · simp [hA] at hok

/-- C6, amended: a page returned without error has a TotalCount of at least 0 when the
TotalCount of the response metadata `doRequest` returned is at least 0, and also when the
version registry answered that the server is below 4.0.0 (which only the hash lookup asks). -/
theorem page_total_count_nonneg (cl : Client σ) (ctx : Context) (op : PageOperation)
    (w : World σ) (hok : (op.run cl ctx w).1.2 = none)
    (hmeta : Call.isServerVersionAtLeast "4.0.0" false ∈ issued w (op.run cl ctx w).2 ∨
      ∀ req res err, Call.doRequest req res err ∈ issued w (op.run cl ctx w).2 →
        0 ≤ res.TotalCount) :
    0 ≤ (op.run cl ctx w).1.1.TotalCount := by
  cases op with
  | GetAll u po f =>
    simp only [PageOperation.run, GetAll, callAssert, callNewRequest, callDoRequest, issued,
      MethodGet] at hok hmeta ⊢
    rcases hA : cl.assertServerVersionAtLeast "4.0.0" w.state with ⟨_ | e, s0⟩
    · rcases hN : cl.newRequest ctx "GET" ("api/v1/component/project/" ++ u.String)
          [cl.withPageOptions po, withComponentFilterOptions f] s0 with ⟨⟨req, _ | e⟩, s1⟩
      · rcases hD : cl.doRequest .components req [] s1 with ⟨⟨items, res, _ | e⟩, s2⟩
        · simp [hA, hN, hD] at hmeta ⊢
          exact hmeta req res none rfl rfl rfl
        · simp [hA, hN, hD] at hok
      · simp [hA, hN] at hok
    · simp [hA] at hok
  | GetByHash h po so =>
    simp only [PageOperation.run, GetByHash, callAssert, callNewRequest, callDoRequest,
      callIsAtLeast, issued, MethodGet] at hok hmeta ⊢
    rcases hA : cl.assertServerVersionAtLeast "3.0.0" w.state with ⟨_ | e, s0⟩
    · rcases hN : cl.newRequest ctx "GET" ("api/v1/component/hash/" ++ h)
          [cl.withPageOptions po, cl.withSortOptions so] s0 with ⟨⟨req, _ | e⟩, s1⟩
      · rcases hD : cl.doRequest .components req [] s1 with ⟨⟨items, res, _ | e⟩, s2⟩
        · rcases hV : cl.isServerVersionAtLeast "4.0.0" s2 with ⟨_ | _, s3⟩
          · simp [hA, hN, hD, hV]
          · simp [hA, hN, hD, hV] at hmeta ⊢
            exact hmeta req res none rfl rfl rfl
        · simp [hA, hN, hD] at hok
      · simp [hA, hN] at hok
    · simp [hA] at hok
  | GetByIdentity po so i =>
    simp only [PageOperation.run, GetByIdentity, callAssert, callNewRequest, callDoRequest,
      issued, MethodGet] at hok hmeta ⊢
    rcases hA : cl.assertServerVersionAtLeast "4.0.0" w.state with ⟨_ | e, s0⟩
    · rcases hN : cl.newRequest ctx "GET" "api/v1/component/identity"
          [cl.withPageOptions po, cl.withSortOptions so, withComponentIdentityOptions i] s0
          with ⟨⟨req, _ | e⟩, s1⟩
      · rcases hD : cl.doRequest .components req [] s1 with ⟨⟨items, res, _ | e⟩, s2⟩
        · simp [hA, hN, hD] at hmeta ⊢
          exact hmeta req res none rfl rfl rfl
        · simp [hA, hN, hD] at hok
      · simp [hA, hN] at hok
    · simp [hA] at hok

/-- C6, as stated, fails: against a simulated 4.0.0 server whose response metadata carries a
TotalCount of -1, GetAll returns no error and a page whose TotalCount is -1. -/
theorem page_total_count_negative :
    (GetAll simClient background UUID.Nil default default (simServer "4.0.0" [] (-1))).1.2 = none ∧
      ¬ 0 ≤ (GetAll simClient background UUID.Nil default default
        (simServer "4.0.0" [] (-1))).1.1.TotalCount := by
  decide

theorem filterWrites_or_identityWrites (f : ComponentFilterOptions)
    (i : ComponentIdentityQueryOptions) (k : String) :
    filterWrites f k = none ∨ identityWrites i k = none := by
  by_cases h1 : k = "onlyOutdated"
  · subst h1; right; simp [identityWrites]
  by_cases h2 : k = "onlyDirect"
  · subst h2; right; simp [identityWrites]
  left; simp [filterWrites, h1, h2]

/-- C2: on a request whose query has neither key, the filter mutator leaves the key
onlyDirect present exactly when OnlyDirect is set, and onlyOutdated present exactly when
OnlyOutdated is set, each with the single value "true"; and a key that carries the value
"false" afterwards carried the same values before. -/
theorem filter_options_query (f : ComponentFilterOptions) (req : Request)
    (hd : req.URL.Query.Has "onlyDirect" = false)
    (ho : req.URL.Query.Has "onlyOutdated" = false) :
    (withComponentFilterOptions f req).1.URL.Query.Has "onlyDirect" = f.OnlyDirect ∧
      (withComponentFilterOptions f req).1.URL.Query.lookup "onlyDirect" =
        (if f.OnlyDirect = true then some ["true"] else none) ∧
      (withComponentFilterOptions f req).1.URL.Query.Has "onlyOutdated" = f.OnlyOutdated ∧
      (withComponentFilterOptions f req).1.URL.Query.lookup "onlyOutdated" =
        (if f.OnlyOutdated = true then some ["true"] else none) ∧
      (∀ k vs, (withComponentFilterOptions f req).1.URL.Query.lookup k = some vs →
        "false" ∈ vs → req.URL.Query.lookup k = some vs) := by
  rw [withComponentFilterOptions_eq]
  obtain ⟨outdated, direct⟩ := f
  have hnone : ∀ o : Option (List String), o.isSome = false → o = none := by
    intro o h; cases o <;> simp_all
  replace hd := hnone _ hd
  replace ho := hnone _ ho
  refine ⟨?_, ?_, ?_, ?_, ?_⟩
  · cases direct <;> simp [Values.Has, Values.override, filterWrites, hd]
  · cases direct <;> simp [Values.override, filterWrites, hd]
  · cases outdated <;> simp [Values.Has, Values.override, filterWrites, ho]
  · cases outdated <;> simp [Values.override, filterWrites, ho]
  · intro k vs hk hf
    simp only [Values.override, filterWrites] at hk
    by_cases h1 : k = "onlyOutdated"
    · subst h1
      cases outdated
      · simpa using hk
      · simp at hk; subst hk; simp at hf
    · by_cases h2 : k = "onlyDirect"
      · subst h2
        cases direct
        · simpa using hk
        · simp at hk; subst hk; simp at hf
      · simpa [h1, h2] using hk

/-- C3: on a request whose query is empty, the identity mutator leaves each of the keys
group, name, version, purl, cpe and swidTagId present exactly when its field is not the empty
string, then with that field as its single value, the key project present exactly when Project
is not the nil UUID, then with the UUID's string form, and no other key. -/
theorem identity_options_query (i : ComponentIdentityQueryOptions) (req : Request)
    (hempty : ∀ k, req.URL.Query.lookup k = none) :
    (withComponentIdentityOptions i req).1.URL.Query.lookup "group" =
        (if i.Group = "" then none else some [i.Group]) ∧
      (withComponentIdentityOptions i req).1.URL.Query.lookup "name" =
        (if i.Name = "" then none else some [i.Name]) ∧
      (withComponentIdentityOptions i req).1.URL.Query.lookup "version" =
        (if i.Version = "" then none else some [i.Version]) ∧
      (withComponentIdentityOptions i req).1.URL.Query.lookup "purl" =
        (if i.PURL = "" then none else some [i.PURL]) ∧
      (withComponentIdentityOptions i req).1.URL.Query.lookup "cpe" =
        (if i.CPE = "" then none else some [i.CPE]) ∧
      (withComponentIdentityOptions i req).1.URL.Query.lookup "swidTagId" =
        (if i.SWIDTagID = "" then none else some [i.SWIDTagID]) ∧
      (withComponentIdentityOptions i req).1.URL.Query.lookup "project" =
        (if i.Project = UUID.Nil then none else some [i.Project.String]) ∧
      (∀ k, k ∉ ["group", "name", "version", "purl", "cpe", "swidTagId", "project"] →
        (withComponentIdentityOptions i req).1.URL.Query.lookup k = none) := by
  rw [withComponentIdentityOptions_eq]
  have hne : ∀ s : String, (nonEmpty s = true) = ¬ s = "" := fun s =>
    propext (nonEmpty_iff s)
  have hl : ∀ k, (req.URL.Query.override (identityWrites i)).lookup k = identityWrites i k := by
    intro k
    simp only [Values.override, hempty]
    cases identityWrites i k <;> rfl
  simp only [hl]
  refine ⟨?_, ?_, ?_, ?_, ?_, ?_, ?_, ?_⟩
  · simp [identityWrites, hne]
  · simp [identityWrites, hne]
  · simp [identityWrites, hne]
  · simp [identityWrites, hne]
  · simp [identityWrites, hne]
  · simp [identityWrites, hne]
  · simp [identityWrites, hne]
  · intro k hk
    simp only [List.mem_cons, List.mem_singleton, List.not_mem_nil, or_false, not_or] at hk
    simp [identityWrites, hk]

/-- C9: the two option mutators return no error, leave every key other than their own as it
was, remove no key, change nothing of the request but its query, and with the zero-value
options leave the query as it was. -/
theorem option_mutators_frame (f : ComponentFilterOptions) (i : ComponentIdentityQueryOptions)
    (req : Request) :
    (withComponentFilterOptions f req).2 = none ∧
      (withComponentIdentityOptions i req).2 = none ∧
      (∀ k, k ∉ ["onlyDirect", "onlyOutdated"] →
        (withComponentFilterOptions f req).1.URL.Query.lookup k = req.URL.Query.lookup k) ∧
      (∀ k, k ∉ ["group", "name", "version", "purl", "cpe", "swidTagId", "project"] →
        (withComponentIdentityOptions i req).1.URL.Query.lookup k = req.URL.Query.lookup k) ∧
      (∀ k, req.URL.Query.Has k = true →
        (withComponentFilterOptions f req).1.URL.Query.Has k = true) ∧
      (∀ k, req.URL.Query.Has k = true →
        (withComponentIdentityOptions i req).1.URL.Query.Has k = true) ∧
      ((withComponentFilterOptions f req).1.Method = req.Method ∧
        (withComponentFilterOptions f req).1.URL.Path = req.URL.Path ∧
        (withComponentFilterOptions f req).1.Header = req.Header ∧
        (withComponentFilterOptions f req).1.Body = req.Body) ∧
      ((withComponentIdentityOptions i req).1.Method = req.Method ∧
        (withComponentIdentityOptions i req).1.URL.Path = req.URL.Path ∧
        (withComponentIdentityOptions i req).1.Header = req.Header ∧
        (withComponentIdentityOptions i req).1.Body = req.Body) ∧
      (withComponentFilterOptions ⟨false, false⟩ req).1.URL.Query = req.URL.Query ∧
      (withComponentIdentityOptions ⟨"", "", "", "", "", "", UUID.Nil⟩ req).1.URL.Query =
        req.URL.Query := by
  have hsome : ∀ (v : Values) (o : String → Option (List String)) (k : String),
      v.Has k = true → (v.override o).Has k = true := by
    intro v o k h
    simp only [Values.Has, Values.override] at h ⊢
    cases o k <;> simp [h]
  rw [withComponentFilterOptions_eq, withComponentIdentityOptions_eq,
    withComponentFilterOptions_eq, withComponentIdentityOptions_eq]
  refine ⟨rfl, rfl, ?_, ?_, fun k h => hsome _ _ k h, fun k h => hsome _ _ k h,
    ⟨rfl, rfl, rfl, rfl⟩, ⟨rfl, rfl, rfl, rfl⟩, ?_, ?_⟩
  · intro k hk
    simp only [List.mem_cons, List.mem_singleton, List.not_mem_nil, or_false, not_or] at hk
    simp [Values.override, filterWrites, hk]
  · intro k hk
    simp only [List.mem_cons, List.mem_singleton, List.not_mem_nil, or_false, not_or] at hk
    simp [Values.override, identityWrites, hk]
  · ext k : 2
    simp [Values.override, filterWrites]
  · have hz : nonEmpty "" = false := by decide
    have hw : ∀ k, identityWrites ⟨"", "", "", "", "", "", UUID.Nil⟩ k = none := by
      intro k
      simp [identityWrites, hz]
    ext k : 2
    simp [Values.override, hw]

/-- C10: each of the two option mutators applied twice gives the query it gives applied
once, and the two applied one after the other give the same query in either order. -/
theorem option_mutators_idempotent_commute (f : ComponentFilterOptions)
    (i : ComponentIdentityQueryOptions) (req : Request) :
    (withComponentFilterOptions f (withComponentFilterOptions f req).1).1.URL.Query =
        (withComponentFilterOptions f req).1.URL.Query ∧
      (withComponentIdentityOptions i (withComponentIdentityOptions i req).1).1.URL.Query =
        (withComponentIdentityOptions i req).1.URL.Query ∧
      (withComponentIdentityOptions i (withComponentFilterOptions f req).1).1.URL.Query =
        (withComponentFilterOptions f (withComponentIdentityOptions i req).1).1.URL.Query := by
  have hidem : ∀ (v : Values) (o : String → Option (List String)),
      (v.override o).override o = v.override o := by
    intro v o
    ext k : 2
    simp only [Values.override]
    cases o k <;> rfl
  simp only [withComponentFilterOptions_eq, withComponentIdentityOptions_eq]
  refine ⟨hidem _ _, hidem _ _, ?_⟩
  ext k : 2
  simp only [Values.override]
  rcases filterWrites_or_identityWrites f i k with h | h
  · rw [h]
  · rw [h]

/-- GetAll against a simulated 3.9.0 server: the gate's VersionError comes back, the gate
call is the only call, and the server has executed no request. -/
theorem gate_error_returned_before_any_request_witness :
    (Operation.GetAll UUID.Nil default default).gate = some "4.0.0" ∧
      (simClient.assertServerVersionAtLeast "4.0.0" (simServer "3.9.0" [] 0).state).1 =
        some (Error.VersionError "4.0.0" "3.9.0") ∧
      (Operation.run simClient background (.GetAll UUID.Nil default default)
          (simServer "3.9.0" [] 0)).1 = some (Error.VersionError "4.0.0" "3.9.0") ∧
      issued (simServer "3.9.0" [] 0)
          (Operation.run simClient background (.GetAll UUID.Nil default default)
            (simServer "3.9.0" [] 0)).2 =
        [Call.assertServerVersionAtLeast "4.0.0" (some (Error.VersionError "4.0.0" "3.9.0"))] ∧
      (Operation.run simClient background (.GetAll UUID.Nil default default)
          (simServer "3.9.0" [] 0)).2.state.executed = 0 :=
  ⟨rfl, rfl,
    (gate_error_returned_before_any_request simClient background
      (.GetAll UUID.Nil default default) (simServer "3.9.0" [] 0) "4.0.0"
      (Error.VersionError "4.0.0" "3.9.0") rfl rfl).1,
    (gate_error_returned_before_any_request simClient background
      (.GetAll UUID.Nil default default) (simServer "3.9.0" [] 0) "4.0.0"
      (Error.VersionError "4.0.0" "3.9.0") rfl rfl).2.1,
    rfl⟩

/-- The filter options with OnlyDirect set and OnlyOutdated not set, on an empty query: the
query has onlyDirect with the value "true" and has no onlyOutdated. -/
theorem filter_options_query_witness :
    baseRequest.URL.Query.Has "onlyDirect" = false ∧
      baseRequest.URL.Query.Has "onlyOutdated" = false ∧
      (withComponentFilterOptions ⟨false, true⟩ baseRequest).1.URL.Query.lookup "onlyDirect" =
        some ["true"] ∧
      (withComponentFilterOptions ⟨false, true⟩ baseRequest).1.URL.Query.Has "onlyOutdated" =
        false :=
  ⟨rfl, rfl, (filter_options_query ⟨false, true⟩ baseRequest rfl rfl).2.1,
    (filter_options_query ⟨false, true⟩ baseRequest rfl rfl).2.2.1⟩

/-- The identity options with only Name set to "foo", on an empty query: the query has name
with the value "foo" and no other key. -/
theorem identity_options_query_witness :
    (∀ k, baseRequest.URL.Query.lookup k = none) ∧
      (withComponentIdentityOptions nameFoo baseRequest).1.URL.Query.lookup "name" =
        some ["foo"] ∧
      ∀ k, k ≠ "name" →
        (withComponentIdentityOptions nameFoo baseRequest).1.URL.Query.lookup k = none := by
  have h := identity_options_query nameFoo baseRequest (fun _ => rfl)
  obtain ⟨h1, h2, h3, h4, h5, h6, h7, h8⟩ := h
  refine ⟨fun _ => rfl, h2, ?_⟩
  intro k hk
  by_cases hm : k ∈ ["group", "name", "version", "purl", "cpe", "swidTagId", "project"]
  · simp only [List.mem_cons, List.mem_singleton, List.not_mem_nil, or_false] at hm
    rcases hm with rfl | rfl | rfl | rfl | rfl | rfl | rfl
    · exact h1
    · exact absurd rfl hk
    · exact h3
    · exact h4
    · exact h5
    · exact h6
    · exact h7
  · exact h8 k hm

/-- A hash lookup against a simulated 3.9.0 server that answers with three items and a
metadata TotalCount of 57. -/
theorem GetByHash_total_count_witness :
    (GetByHash simClient background "abc" default default
        (simServer "3.9.0" [default, default, default] 57)).1.2 = none ∧
      ∃ req res b,
        issued (simServer "3.9.0" [default, default, default] 57)
            (GetByHash simClient background "abc" default default
              (simServer "3.9.0" [default, default, default] 57)).2 =
          [Call.assertServerVersionAtLeast "3.0.0" none,
            Call.newRequest "GET" ("api/v1/component/hash/" ++ "abc") 2 none,
            Call.doRequest req res none,
            Call.isServerVersionAtLeast "4.0.0" b] ∧
        (GetByHash simClient background "abc" default default
            (simServer "3.9.0" [default, default, default] 57)).1.1.TotalCount =
          if b = true then res.TotalCount
          else ((GetByHash simClient background "abc" default default
            (simServer "3.9.0" [default, default, default] 57)).1.1.Items.length : Int) :=
  ⟨rfl, GetByHash_total_count simClient background "abc" default default
    (simServer "3.9.0" [default, default, default] 57) rfl⟩

/-- Hash lookup against a simulated 3.9.0 server returning 3 items: TotalCount is 3, whatever
the metadata says. -/
theorem GetByHash_on_3_9_0 (totalCount : Int) :
    (GetByHash simClient background "abc" default default
      (simServer "3.9.0" [default, default, default] totalCount)).1 =
      (⟨[default, default, default], 3⟩, none) := rfl

/-- Hash lookup against a simulated 4.0.0 server returning 10 items and a metadata TotalCount
of 57: TotalCount is 57. -/
theorem GetByHash_on_4_0_0 :
    (GetByHash simClient background "abc" default default
      (simServer "4.0.0" (List.replicate 10 default) 57)).1.1.TotalCount = 57 ∧
    (GetByHash simClient background "abc" default default
      (simServer "4.0.0" (List.replicate 10 default) 57)).1.1.Items.length = 10 := by
  decide

/-- GetAll against a simulated 4.0.0 server whose metadata TotalCount is 57. -/
theorem page_total_count_nonneg_witness :
    (PageOperation.run simClient background (.GetAll UUID.Nil default default)
        (simServer "4.0.0" [] 57)).1.2 = none ∧
      0 ≤ (PageOperation.run simClient background (.GetAll UUID.Nil default default)
        (simServer "4.0.0" [] 57)).1.1.TotalCount := by
  refine ⟨rfl, page_total_count_nonneg simClient background (.GetAll UUID.Nil default default)
    (simServer "4.0.0" [] 57) rfl (Or.inr ?_)⟩
  intro req res err h
  have hlog : issued (simServer "4.0.0" [] 57)
      (PageOperation.run simClient background (.GetAll UUID.Nil default default)
        (simServer "4.0.0" [] 57)).2 =
      [Call.assertServerVersionAtLeast "4.0.0" none,
        Call.newRequest "GET" "api/v1/component/project/00000000-0000-0000-0000-000000000000" 2 none,
        Call.doRequest ⟨"GET", ⟨"api/v1/component/project/00000000-0000-0000-0000-000000000000",
          Values.empty⟩, Values.empty, none⟩ ⟨57⟩ none] := rfl
  rw [hlog] at h
  simp only [List.mem_cons, List.mem_singleton, List.not_mem_nil, or_false, false_or,
    Call.doRequest.injEq] at h
  rcases h with h | h | h
  · cases h
  · cases h
  · rw [h.2.1]
    decide

/-- Upload against a simulated server whose request execution fails: the transport error
`doRequest` returned is the error Upload returns, after a single execution. -/
theorem request_errors_returned_unchanged_witness :
    (Operation.run simClient background (.Upload default) failingServer).1 =
        some (Error.TransportError "connection refused") ∧
      (Operation.run simClient background (.Upload default) failingServer).2.state.executed = 1 :=
  ⟨(request_errors_returned_unchanged simClient background (.Upload default) failingServer).2.1
      _ _ _ (List.Mem.tail _ (List.Mem.head _)), rfl⟩

end dtrack
